import Mathlib

set_option autoImplicit false

/-!
Verification development for the alavancainvestimentos-service repository.

The development shallowly embeds the fetch-and-extract pipeline
(app/main.py) and the HTML data extractor (app/data/extractor.py):

* Python dict values are modelled by `PyVal` (a string or None) and dicts by
  association lists with Python insertion-order update semantics (`setA`).
* The on-disk page cache is an association list from file name to content;
  a `none` content models a file whose read raises.
* The external collaborators of the pipeline (browser fetch, the extractor
  invocations) are `Except`-valued functions, an `error` result modelling a
  raised Python exception; the pipeline body of `main` is `stepRecord`.
* Parsed HTML is modelled by a flat preorder listing of DOM nodes keyed by
  tree path, over which the BeautifulSoup operations used by the extractor
  (select_one, find, find_all, find_next, find_parent, get_text) are defined.
* The regular-expression searches of the extractor run on a small
  backtracking matcher with Python re semantics (leftmost match, greedy
  star, ordered alternation).
-/

/-- Python scalar value held in a record field: a string or None. -/
inductive PyVal where
  | vStr (s : String)
  | vNone
deriving Repr, DecidableEq

/-- a Python dict with string keys, as an insertion-ordered association list. -/
abbrev Record := List (String × PyVal)

/-- Python dict assignment d[k] = v: overwrite in place if the key exists,
otherwise append at the end (insertion order preserved). -/
def setA {α : Type} : List (String × α) → String → α → List (String × α)
  | [], k, v => [(k, v)]
  | (k0, v0) :: rest, k, v =>
    if k0 = k then (k, v) :: rest else (k0, v0) :: setA rest k v

/-- Python dict lookup d.get(k): the value at the first matching key. -/
def getA? {α : Type} : List (String × α) → String → Option α
  | [], _ => none
  | (k0, v0) :: rest, k => if k0 = k then some v0 else getA? rest k

/-- Python membership test: k in d. -/
def hasKeyA {α : Type} (d : List (String × α)) (k : String) : Bool :=
  (getA? d k).isSome

/-- Python d.get(k) (default None). -/
def pyGet (r : Record) (k : String) : PyVal := (getA? r k).getD PyVal.vNone

/-- Python d.get(k, dflt). -/
def pyGetD (r : Record) (k : String) (dflt : PyVal) : PyVal := (getA? r k).getD dflt

/-- Python str() applied to a record value. -/
def pyStr : PyVal → String
  | .vStr s => s
  | .vNone => "None"

/-- Python truthiness of a record value: None and the empty string are falsy. -/
def isTruthy : PyVal → Bool
  | .vStr s => !(s == "")
  | .vNone => false

/-- Lexicographic comparison of character lists by code point, the order
Python string comparison (and hence sorted) uses. -/
def charListLe : List Char → List Char → Bool
  | [], _ => true
  | _ :: _, [] => false
  | a :: as, b :: bs =>
    if a.toNat < b.toNat then true
    else if b.toNat < a.toNat then false
    else charListLe as bs

/-- Python string comparison s <= t. -/
def strLeB (s t : String) : Bool := charListLe s.toList t.toList

/-- Insertion step of an ascending insertion sort over strings. -/
def insertSorted (x : String) : List String → List String
  | [] => [x]
  | y :: ys => if strLeB x y then x :: y :: ys else y :: insertSorted x ys

/-- Ascending sort of a list of strings, as Python sorted() produces. -/
def sortAsc : List String → List String
  | [] => []
  | x :: xs => insertSorted x (sortAsc xs)

/-- Whether the first list is an initial segment of the second. -/
def startsWithL : List Char → List Char → Bool
  | [], _ => true
  | _ :: _, [] => false
  | a :: as, b :: bs => a = b && startsWithL as bs

/-- Whether the first list is a final segment of the second. -/
def endsWithL (p s : List Char) : Bool := startsWithL p.reverse s.reverse

/-- Whether a file name matches the glob pattern stem*.html used for cache
lookup (main.py line 69): the stem as a literal start, any characters for
the star, and the literal .html end. -/
def globMatch (stem : String) (name : String) : Bool :=
  startsWithL stem.toList name.toList &&
    endsWithL (String.toList ".html") name.toList &&
    decide (stem.toList.length + 5 ≤ name.toList.length)

/-- the output directory of the pipeline, a file name to content map; a
content of none models a file whose open/read raises (main.py line 79). -/
abbrev FileSys := List (String × Option String)

/-- the fixed output directory of main (main.py line 48). -/
def outputDir : String := "tmp-al-service"

/-- os.path.join on a directory and a file name. -/
def joinPath (dir name : String) : String := dir ++ "/" ++ name

/-- the common stem imovel_<id>_ of the cache file names of one identifier. -/
def cacheStem (idStr : String) : String := "imovel_" ++ idStr ++ "_"

/-- the cache file name imovel_<id>_<timestamp>.html (main.py line 94). -/
def cacheFileName (idStr : String) (now : Nat) : String :=
  cacheStem idStr ++ toString now ++ ".html"

/-- glob.glob over the output directory for imovel_<id>_*.html. -/
def globCache (fs : FileSys) (idStr : String) : List String :=
  (fs.map Prod.fst).filter (fun n => globMatch (cacheStem idStr) n)

/-- sorted(existing_files)[-1] (main.py line 73): the lexicographically last
matching file name, if any file matches. -/
def cacheCandidate (fs : FileSys) (idStr : String) : Option String :=
  (sortAsc (globCache fs idStr)).getLast?

/-- Reading a file: none if absent, some none if the read raises. -/
def readFile (fs : FileSys) (name : String) : Option (Option String) := getA? fs name

/-- Writing a file, overwriting any previous content. -/
def writeFile (fs : FileSys) (name content : String) : FileSys :=
  setA fs name (some content)

/-- the guard id_imovel and id_imovel != "unknown" of main.py line 68. -/
def validId (idv : PyVal) : Bool := isTruthy idv && !(pyStr idv == "unknown")

/-- Cache lookup of main.py lines 66-81: glob for existing snapshots, pick the
lexicographically last, try to read it.  On success the html content is
returned and the record is annotated with the cache file path; an unreadable
file (or no match, or an invalid identifier) yields the empty string and the
record unchanged, which forces a re-fetch. -/
def cacheRead (fs : FileSys) (record : Record) (idv : PyVal) : String × Record :=
  if validId idv then
    match cacheCandidate fs (pyStr idv) with
    | some latest =>
      match readFile fs latest with
      | some (some content) =>
        (content, setA record "saved_html_path" (PyVal.vStr (joinPath outputDir latest)))
      | _ => ("", record)
    | none => ("", record)
  else ("", record)

/-- External collaborators of the pipeline: the browser fetch
(BrowserScraper.get_page_source), the two extractor calls on the fetched
html, and the current unix timestamp.  An Except.error result models a
Python exception raised during the call. -/
structure Env where
  fetch : String → Except String String
  extractDetails : String → Except String (List (String × PyVal))
  rawText : String → Except String (Option String)
  now : Nat

/-- Modelled from the spec: BrowserScraper.save_page_source is invoked by the
pipeline (main.py line 95) but its definition is not among the provided
source files.  Per the spec (section 4.3, persist the raw HTML under a new
timestamped filename; section 6, cache files written under a configurable
output directory) it writes the content to the given file name under the
output directory and returns the saved path. -/
def save_page_source (fs : FileSys) (content filename : String) : FileSys × String :=
  (writeFile fs filename content, joinPath outputDir filename)

/-- dict.update(details) (main.py line 104): merge the extracted fields into
the record, overwriting existing keys, in the insertion order of details. -/
def updateFields (r : Record) (details : List (String × PyVal)) : Record :=
  details.foldl (fun acc kv => setA acc kv.fst kv.snd) r

/-- the except branch of main.py lines 116-120: tag the record with status
error and the exception description. -/
def markError (r : Record) (e : String) : Record :=
  setA (setA r "scraping_status" (PyVal.vStr "error")) "error_message" (PyVal.vStr e)

/-- the extraction part of the loop body (main.py lines 98-114): extract the
detail fields, merge them when non-empty, attach the raw container text
(or the Not Found sentinel), and mark success; an exception from either
extractor call is caught at the record boundary. -/
def extractPhase (env : Env) (fs : FileSys) (nf : Nat) (rec : Record) (html : String) :
    FileSys × Nat × Option Record :=
  match env.extractDetails html with
  | .error e => (fs, nf, some (markError rec e))
  | .ok details =>
    let rec1 := if details.isEmpty then rec else updateFields rec details
    match env.rawText html with
    | .error e => (fs, nf, some (markError rec1 e))
    | .ok raw =>
      let rawv :=
        match raw with
        | some s => if s == "" then PyVal.vStr "Not Found" else PyVal.vStr s
        | none => PyVal.vStr "Not Found"
      let rec2 := setA rec1 "raw_dados_imovel" rawv
      (fs, nf, some (setA rec2 "scraping_status" (PyVal.vStr "success")))

/-- One iteration of the record loop of main (main.py lines 55-120).  Returns
the new file system, the number of fetch invocations made (0 or 1), and the
record to append to processed_records (none when the record has no link and
is skipped).  All failure paths of the body append a record: a fetch that
raises or returns empty content, and an extraction that raises, never drop
the record or abort the loop. -/
def stepRecord (env : Env) (fs : FileSys) (record : Record) : FileSys × Nat × Option Record :=
  let url := pyGet record "link"
  let idv := pyGetD record "id_imovel" (PyVal.vStr "unknown")
  if isTruthy url then
    let hr := cacheRead fs record idv
    if hr.fst == "" then
      match env.fetch (pyStr url) with
      | .error e => (fs, 1, some (markError hr.snd e))
      | .ok fetched =>
        if fetched == "" then
          (fs, 1, some (setA hr.snd "scraping_status" (PyVal.vStr "failed")))
        else
          let saved := save_page_source fs fetched (cacheFileName (pyStr idv) env.now)
          let rec1 := setA hr.snd "saved_html_path" (PyVal.vStr saved.snd)
          extractPhase env saved.fst 1 rec1 fetched
    else
      extractPhase env fs 0 hr.snd hr.fst
  else (fs, 0, none)

/-- Accumulated pipeline state: the output directory contents, the number of
fetch invocations so far, and processed_records (the list later handed to
the export sink). -/
structure PState where
  fs : FileSys
  fetchCount : Nat
  processed : List Record
deriving Repr, DecidableEq

/-- Fold one record into the pipeline state. -/
def processRecord (env : Env) (st : PState) (record : Record) : PState :=
  let res := stepRecord env st.fs record
  { fs := res.fst
    fetchCount := st.fetchCount + res.snd.fst
    processed := st.processed ++ (match res.snd.snd with
      | some r => [r]
      | none => []) }

/-- the record loop of main over a batch of records. -/
def runPipeline (env : Env) (st : PState) (records : List Record) : PState :=
  records.foldl (processRecord env) st

/-! ## Association list lemmas -/

theorem getA?_setA_self {α : Type} (d : List (String × α)) (k : String) (v : α) :
    getA? (setA d k v) k = some v := by
  induction d with
  | nil => simp [setA, getA?]
  | cons p rest ih =>
    obtain ⟨k0, v0⟩ := p
    by_cases h : k0 = k <;> simp [setA, getA?, h, ih]

theorem getA?_setA_ne {α : Type} (d : List (String × α)) (k k2 : String) (v : α)
    (h : k2 ≠ k) : getA? (setA d k v) k2 = getA? d k2 := by
  induction d with
  | nil => simp [setA, getA?, Ne.symm h]
  | cons p rest ih =>
    obtain ⟨k0, v0⟩ := p
    by_cases h0 : k0 = k
    · subst h0
      simp [setA, getA?, Ne.symm h]
    · by_cases h2 : k0 = k2 <;> simp [setA, getA?, h0, h2, ih, h]

theorem hasKeyA_setA_self {α : Type} (d : List (String × α)) (k : String) (v : α) :
    hasKeyA (setA d k v) k = true := by
  simp [hasKeyA, getA?_setA_self]

theorem hasKeyA_setA_of {α : Type} (d : List (String × α)) (k k2 : String) (v : α)
    (h : hasKeyA d k2 = true) : hasKeyA (setA d k v) k2 = true := by
  by_cases hk : k2 = k
  · subst hk; simp [hasKeyA, getA?_setA_self]
  · simpa [hasKeyA, getA?_setA_ne d k k2 v hk] using h

theorem hasKeyA_false_getA? {α : Type} (d : List (String × α)) (k : String)
    (h : hasKeyA d k = false) : getA? d k = none := by
  cases hg : getA? d k with
  | none => rfl
  | some v => simp [hasKeyA, hg] at h

theorem getA?_updateFields_of_not_mem (r : Record) (details : List (String × PyVal))
    (k : String) (h : hasKeyA details k = false) :
    getA? (updateFields r details) k = getA? r k := by
  induction details generalizing r with
  | nil => simp [updateFields]
  | cons kv rest ih =>
    obtain ⟨k0, v0⟩ := kv
    have hne : k ≠ k0 := by
      intro he
      subst he
      simp [hasKeyA, getA?] at h
    have hrest : hasKeyA rest k = false := by
      simp [hasKeyA, getA?, Ne.symm hne] at h
      simpa [hasKeyA] using h
    calc getA? (updateFields r ((k0, v0) :: rest)) k
        = getA? (updateFields (setA r k0 v0) rest) k := rfl
      _ = getA? (setA r k0 v0) k := ih (setA r k0 v0) hrest
      _ = getA? r k := getA?_setA_ne r k0 k v0 hne

/-! ## String order: totality, transitivity, sorted-last is max -/

theorem charListLe_total : ∀ as bs : List Char,
    charListLe as bs = true ∨ charListLe bs as = true
  | [], _ => Or.inl rfl
  | _ :: _, [] => Or.inr rfl
  | a :: as, b :: bs => by
    by_cases h1 : a.toNat < b.toNat
    · left; simp [charListLe, h1]
    · by_cases h2 : b.toNat < a.toNat
      · right; simp [charListLe, h2, h1]
      · rcases charListLe_total as bs with h | h
        · left; simp [charListLe, h1, h2, h]
        · right; simp [charListLe, h1, h2, h]

theorem charListLe_trans : ∀ as bs cs : List Char,
    charListLe as bs = true → charListLe bs cs = true → charListLe as cs = true
  | [], _, _, _, _ => rfl
  | _ :: _, [], _, hab, _ => by simp [charListLe] at hab
  | _ :: _, _ :: _, [], _, hbc => by simp [charListLe] at hbc
  | a :: as, b :: bs, c :: cs, hab, hbc => by
    rcases Nat.lt_trichotomy a.toNat b.toNat with h1 | h1 | h1 <;>
      rcases Nat.lt_trichotomy b.toNat c.toNat with h2 | h2 | h2
    · simp [charListLe, Nat.lt_trans h1 h2]
    · have hac : a.toNat < c.toNat := by omega
      simp [charListLe, hac]
    · simp [charListLe, h2, show ¬ b.toNat < c.toNat from by omega] at hbc
    · have hac : a.toNat < c.toNat := by omega
      simp [charListLe, hac]
    · have n1 : ¬ a.toNat < b.toNat := by omega
      have n2 : ¬ b.toNat < a.toNat := by omega
      have n3 : ¬ b.toNat < c.toNat := by omega
      have n4 : ¬ c.toNat < b.toNat := by omega
      have n5 : ¬ a.toNat < c.toNat := by omega
      have n6 : ¬ c.toNat < a.toNat := by omega
      simp [charListLe, n1, n2] at hab
      simp [charListLe, n3, n4] at hbc
      simp [charListLe, n5, n6]
      exact charListLe_trans as bs cs hab hbc
    · simp [charListLe, h2, show ¬ b.toNat < c.toNat from by omega] at hbc
    · simp [charListLe, h1, show ¬ a.toNat < b.toNat from by omega] at hab
    · simp [charListLe, h1, show ¬ a.toNat < b.toNat from by omega] at hab
    · simp [charListLe, h1, show ¬ a.toNat < b.toNat from by omega] at hab

theorem strLeB_total (s t : String) : strLeB s t = true ∨ strLeB t s = true :=
  charListLe_total s.toList t.toList

theorem strLeB_trans {s t u : String} (h1 : strLeB s t = true) (h2 : strLeB t u = true) :
    strLeB s u = true :=
  charListLe_trans s.toList t.toList u.toList h1 h2

theorem charListLe_refl : ∀ l : List Char, charListLe l l = true
  | [] => rfl
  | c :: cs => by simp [charListLe, charListLe_refl cs]

theorem strLeB_refl (s : String) : strLeB s s = true :=
  charListLe_refl s.toList

theorem mem_insertSorted (x y : String) : ∀ l : List String,
    y ∈ insertSorted x l ↔ y = x ∨ y ∈ l
  | [] => by simp [insertSorted]
  | z :: zs => by
    cases h : strLeB x z with
    | true => simp [insertSorted, h]
    | false =>
      simp [insertSorted, h, mem_insertSorted x y zs]
      tauto

theorem mem_sortAsc (y : String) : ∀ l : List String, y ∈ sortAsc l ↔ y ∈ l
  | [] => Iff.rfl
  | x :: xs => by
    simp [sortAsc, mem_insertSorted, mem_sortAsc y xs]

/-- Chain formulation of sortedness for ascending string lists. -/
def chainLeB : List String → Prop
  | [] => True
  | [_] => True
  | x :: y :: rest => strLeB x y = true ∧ chainLeB (y :: rest)

theorem insertSorted_eq_cons_of_le (x y : String) (ys : List String)
    (h : strLeB x y = true) : insertSorted x (y :: ys) = x :: y :: ys := by
  simp [insertSorted, h]

theorem insertSorted_eq_skip (x y : String) (ys : List String)
    (h : strLeB x y = false) : insertSorted x (y :: ys) = y :: insertSorted x ys := by
  simp [insertSorted, h]

theorem chainLeB_insertSorted (x : String) : ∀ l : List String,
    chainLeB l → chainLeB (insertSorted x l)
  | [], _ => trivial
  | y :: ys, hl => by
    cases h : strLeB x y with
    | true =>
      rw [insertSorted_eq_cons_of_le x y ys h]
      exact ⟨h, hl⟩
    | false =>
      have hyx : strLeB y x = true := by
        rcases strLeB_total x y with h1 | h1
        · rw [h] at h1; cases h1
        · exact h1
      rw [insertSorted_eq_skip x y ys h]
      cases ys with
      | nil => exact ⟨hyx, trivial⟩
      | cons z zs =>
        obtain ⟨hyz, htail⟩ := hl
        have hrec := chainLeB_insertSorted x (z :: zs) htail
        cases h2 : strLeB x z with
        | true =>
          rw [insertSorted_eq_cons_of_le x z zs h2]
          exact ⟨hyx, h2, htail⟩
        | false =>
          rw [insertSorted_eq_skip x z zs h2]
          rw [insertSorted_eq_skip x z zs h2] at hrec
          exact ⟨hyz, hrec⟩

theorem chainLeB_sortAsc : ∀ l : List String, chainLeB (sortAsc l)
  | [] => trivial
  | x :: xs => chainLeB_insertSorted x (sortAsc xs) (chainLeB_sortAsc xs)

theorem chainLeB_le_getLast : ∀ l : List String, chainLeB l →
    ∀ x ∈ l, ∀ m, l.getLast? = some m → strLeB x m = true
  | [], _, x, hx, _, _ => by simp at hx
  | [y], _, x, hx, m, hm => by
    simp at hx hm
    subst hx; subst hm
    exact strLeB_refl _
  | y :: z :: rest, hc, x, hx, m, hm => by
    obtain ⟨hyz, htail⟩ := hc
    have hm2 : (z :: rest).getLast? = some m := by
      simpa [List.getLast?_cons_cons] using hm
    rcases List.mem_cons.mp hx with h | h
    · subst h
      have hz : strLeB z m = true :=
        chainLeB_le_getLast (z :: rest) htail z (List.mem_cons_self z rest) m hm2
      exact strLeB_trans hyz hz
    · exact chainLeB_le_getLast (z :: rest) htail x h m hm2

theorem getLast?_mem_of : ∀ {l : List String} {m : String}, l.getLast? = some m → m ∈ l
  | [], _, h => by simp at h
  | [y], m, h => by simp at h; simp [h]
  | y :: z :: rest, m, h => by
    have h2 : (z :: rest).getLast? = some m := by
      simpa [List.getLast?_cons_cons] using h
    exact List.mem_cons_of_mem y (getLast?_mem_of h2)

/-- the selected cache candidate is a matching file name and is
lexicographically greatest among the matching names. -/
theorem cacheCandidate_max (fs : FileSys) (idStr : String) (m : String)
    (h : cacheCandidate fs idStr = some m) :
    m ∈ globCache fs idStr ∧ ∀ x ∈ globCache fs idStr, strLeB x m = true := by
  unfold cacheCandidate at h
  constructor
  · exact (mem_sortAsc m (globCache fs idStr)).mp (getLast?_mem_of h)
  · intro x hx
    exact chainLeB_le_getLast (sortAsc (globCache fs idStr))
      (chainLeB_sortAsc (globCache fs idStr)) x
      ((mem_sortAsc x (globCache fs idStr)).mpr hx) m h

/-! ## Pipeline lemmas -/

/-- the url field of a record as main reads it (main.py line 56). -/
def recUrl (record : Record) : PyVal := pyGet record "link"

/-- the identifier field of a record as main reads it (main.py line 57). -/
def recIdv (record : Record) : PyVal := pyGetD record "id_imovel" (PyVal.vStr "unknown")

theorem extractPhase_fst (env : Env) (fs : FileSys) (nf : Nat) (rec : Record) (html : String) :
    (extractPhase env fs nf rec html).fst = fs := by
  unfold extractPhase
  cases env.extractDetails html with
  | error e => rfl
  | ok details =>
    cases env.rawText html with
    | error e => rfl
    | ok raw => rfl

theorem extractPhase_nf (env : Env) (fs : FileSys) (nf : Nat) (rec : Record) (html : String) :
    (extractPhase env fs nf rec html).snd.fst = nf := by
  unfold extractPhase
  cases env.extractDetails html with
  | error e => rfl
  | ok details =>
    cases env.rawText html with
    | error e => rfl
    | ok raw => rfl

theorem extractPhase_some (env : Env) (fs : FileSys) (nf : Nat) (rec : Record) (html : String) :
    ∃ r2, (extractPhase env fs nf rec html).snd.snd = some r2 := by
  unfold extractPhase
  cases env.extractDetails html with
  | error e => exact ⟨_, rfl⟩
  | ok details =>
    cases env.rawText html with
    | error e => exact ⟨_, rfl⟩
    | ok raw => exact ⟨_, rfl⟩

theorem stepRecord_no_link (env : Env) (fs : FileSys) (record : Record)
    (h : isTruthy (recUrl record) = false) :
    stepRecord env fs record = (fs, 0, none) := by
  unfold recUrl at h
  simp [stepRecord, h]

theorem extractPhase_isSome (env : Env) (fs : FileSys) (nf : Nat) (rec : Record) (html : String) :
    (extractPhase env fs nf rec html).snd.snd.isSome = true := by
  unfold extractPhase
  cases env.extractDetails html with
  | error e => rfl
  | ok details =>
    cases env.rawText html with
    | error e => rfl
    | ok raw => rfl

theorem stepRecord_isSome (env : Env) (fs : FileSys) (record : Record)
    (h : isTruthy (recUrl record) = true) :
    (stepRecord env fs record).snd.snd.isSome = true := by
  unfold recUrl at h
  cases hhr : (cacheRead fs record (pyGetD record "id_imovel" (PyVal.vStr "unknown"))).fst == "" with
  | true =>
    cases hf : env.fetch (pyStr (pyGet record "link")) with
    | error e => simp [stepRecord, h, hhr, hf]
    | ok fetched =>
      cases hemp : fetched == "" with
      | true => simp [stepRecord, h, hhr, hf, hemp]
      | false => simp [stepRecord, h, hhr, hf, hemp, extractPhase_isSome]
  | false => simp [stepRecord, h, hhr, extractPhase_isSome]

theorem stepRecord_some (env : Env) (fs : FileSys) (record : Record)
    (h : isTruthy (recUrl record) = true) :
    ∃ r2, (stepRecord env fs record).snd.snd = some r2 :=
  Option.isSome_iff_exists.mp (stepRecord_isSome env fs record h)

/-- Count of records that carry a non-empty link (the records main does not
skip). -/
def countTruthyLinks (records : List Record) : Nat :=
  (records.filter (fun r => isTruthy (recUrl r))).length

theorem runPipeline_nil (env : Env) (st : PState) : runPipeline env st [] = st := rfl

theorem runPipeline_cons (env : Env) (st : PState) (r : Record) (rs : List Record) :
    runPipeline env st (r :: rs) = runPipeline env (processRecord env st r) rs := rfl

/-- Each record with a link contributes exactly one row to processed_records
and each record without a link contributes none, regardless of any failures:
the batch never stops early. -/
theorem runPipeline_processed_length (env : Env) : ∀ (records : List Record) (st : PState),
    (runPipeline env st records).processed.length
      = st.processed.length + countTruthyLinks records
  | [], st => by simp [runPipeline, countTruthyLinks]
  | r :: rs, st => by
    rw [runPipeline_cons]
    rw [runPipeline_processed_length env rs (processRecord env st r)]
    cases h : isTruthy (recUrl r) with
    | false =>
      have hstep := stepRecord_no_link env st.fs r h
      simp [processRecord, hstep, countTruthyLinks, List.filter_cons, h]
    | true =>
      obtain ⟨r2, hstep⟩ := stepRecord_some env st.fs r h
      simp [processRecord, hstep, countTruthyLinks, List.filter_cons, h]
      omega

theorem processRecord_fs (env : Env) (st : PState) (record : Record) :
    (processRecord env st record).fs = (stepRecord env st.fs record).fst := rfl

theorem processRecord_fetchCount (env : Env) (st : PState) (record : Record) :
    (processRecord env st record).fetchCount
      = st.fetchCount + (stepRecord env st.fs record).snd.fst := rfl

theorem processRecord_processed (env : Env) (st : PState) (record : Record) (r2 : Record)
    (h : (stepRecord env st.fs record).snd.snd = some r2) :
    (processRecord env st record).processed = st.processed ++ [r2] := by
  simp [processRecord, h]

theorem getA?_markError_status (r : Record) (e : String) :
    getA? (markError r e) "scraping_status" = some (PyVal.vStr "error") := by
  unfold markError
  rw [getA?_setA_ne _ _ _ _ (by decide)]
  exact getA?_setA_self _ _ _

theorem getA?_markError_msg (r : Record) (e : String) :
    getA? (markError r e) "error_message" = some (PyVal.vStr e) :=
  getA?_setA_self _ _ _

theorem getA?_markError_other (r : Record) (e k : String)
    (h1 : k ≠ "scraping_status") (h2 : k ≠ "error_message") :
    getA? (markError r e) k = getA? r k := by
  unfold markError
  rw [getA?_setA_ne _ _ _ _ h2, getA?_setA_ne _ _ _ _ h1]

/-! ## Claim theorems about the pipeline controller -/

/-- C10: For every input record whose link field is missing or empty, the
pipeline skips the record entirely before any fetch or extraction: the record
receives no scraping_status, is not appended to the processed set, and is
therefore absent from the exported output table. -/
theorem c10_missing_link_skipped (env : Env) (st : PState) (record : Record)
    (rest : List Record) (h : isTruthy (recUrl record) = false) :
    processRecord env st record = st ∧
    runPipeline env st (record :: rest) = runPipeline env st rest := by
  have hstep := stepRecord_no_link env st.fs record h
  have hp : processRecord env st record = st := by
    simp [processRecord, hstep]
  exact ⟨hp, by rw [runPipeline_cons, hp]⟩

/-- concrete environment used by the pipeline witnesses. -/
def envW : Env where
  fetch := fun _ => Except.ok "<p>x</p>"
  extractDetails := fun _ => Except.ok []
  rawText := fun _ => Except.ok none
  now := 111

theorem c10_missing_link_skipped_witness :
    isTruthy (recUrl [("id_imovel", PyVal.vStr "X")]) = false ∧
    processRecord envW { fs := [], fetchCount := 0, processed := [] }
        [("id_imovel", PyVal.vStr "X")]
      = { fs := [], fetchCount := 0, processed := [] } :=
  ⟨by decide,
    (c10_missing_link_skipped envW { fs := [], fetchCount := 0, processed := [] }
      [("id_imovel", PyVal.vStr "X")] [] (by decide)).1⟩

/-- C4: For every record that is a cache miss and whose fetch returns empty
content, the record is appended to the exported set with
scraping_status = failed, no detail extraction is attempted for it, and
processing continues with the next record. -/
theorem c4_empty_fetch_marked_failed (env : Env) (st : PState) (record : Record)
    (rest : List Record)
    (h1 : isTruthy (recUrl record) = true)
    (h2 : (cacheRead st.fs record (recIdv record)).fst = "")
    (h3 : env.fetch (pyStr (recUrl record)) = Except.ok "") :
    (processRecord env st record).processed
        = st.processed
          ++ [setA (cacheRead st.fs record (recIdv record)).snd "scraping_status"
                (PyVal.vStr "failed")] ∧
    getA? (setA (cacheRead st.fs record (recIdv record)).snd "scraping_status"
        (PyVal.vStr "failed")) "scraping_status" = some (PyVal.vStr "failed") ∧
    (processRecord env st record).fs = st.fs ∧
    (∀ env2 : Env, env2.fetch = env.fetch →
        stepRecord env2 st.fs record = stepRecord env st.fs record) ∧
    runPipeline env st (record :: rest) = runPipeline env (processRecord env st record) rest := by
  have hstep : stepRecord env st.fs record
      = (st.fs, 1, some (setA (cacheRead st.fs record (recIdv record)).snd "scraping_status"
          (PyVal.vStr "failed"))) := by
    unfold recUrl at h1 h3
    unfold recIdv at h2 ⊢
    simp [stepRecord, h1, h2, h3]
  refine ⟨?_, getA?_setA_self _ _ _, ?_, ?_, rfl⟩
  · exact processRecord_processed env st record _ (by rw [hstep])
  · rw [processRecord_fs, hstep]
  · intro env2 hf
    have hstep2 : stepRecord env2 st.fs record
        = (st.fs, 1, some (setA (cacheRead st.fs record (recIdv record)).snd "scraping_status"
            (PyVal.vStr "failed"))) := by
      unfold recUrl at h1 h3
      unfold recIdv at h2 ⊢
      simp [stepRecord, h1, h2, hf, h3]
    rw [hstep2, hstep]

theorem c4_empty_fetch_marked_failed_witness :
    isTruthy (recUrl [("link", PyVal.vStr "u"), ("id_imovel", PyVal.vStr "X")]) = true ∧
    (cacheRead [] [("link", PyVal.vStr "u"), ("id_imovel", PyVal.vStr "X")]
        (recIdv [("link", PyVal.vStr "u"), ("id_imovel", PyVal.vStr "X")])).fst = "" ∧
    (processRecord { envW with fetch := fun _ => Except.ok "" }
        { fs := [], fetchCount := 0, processed := [] }
        [("link", PyVal.vStr "u"), ("id_imovel", PyVal.vStr "X")]).processed
      = [] ++ [setA (cacheRead [] [("link", PyVal.vStr "u"), ("id_imovel", PyVal.vStr "X")]
          (recIdv [("link", PyVal.vStr "u"), ("id_imovel", PyVal.vStr "X")])).snd
          "scraping_status" (PyVal.vStr "failed")] :=
  ⟨by decide, by decide,
    (c4_empty_fetch_marked_failed { envW with fetch := fun _ => Except.ok "" }
      { fs := [], fetchCount := 0, processed := [] }
      [("link", PyVal.vStr "u"), ("id_imovel", PyVal.vStr "X")] []
      (by decide) (by decide) rfl).1⟩

/-- Outcome shape of the except branch of main (lines 116-120): exactly one
row appended for the record, tagged status error, carrying the non-empty
exception description. -/
def ErrorOutcome (st st2 : PState) (e : String) : Prop :=
  ∃ r2, st2.processed = st.processed ++ [r2] ∧
    getA? r2 "scraping_status" = some (PyVal.vStr "error") ∧
    getA? r2 "error_message" = some (PyVal.vStr e) ∧
    PyVal.vStr e ≠ PyVal.vStr ""

theorem errorOutcome_of_markError (env : Env) (st : PState) (record : Record)
    (R : Record) (e : String) (he : e ≠ "")
    (h : (stepRecord env st.fs record).snd.snd = some (markError R e)) :
    ErrorOutcome st (processRecord env st record) e :=
  ⟨markError R e, processRecord_processed env st record _ h,
    getA?_markError_status R e, getA?_markError_msg R e, by simpa using he⟩

/-- C3: For every record, if any exception is raised during that record's
fetch or extraction, the record is still appended to the exported set with
scraping_status = error and a non-empty error_message describing the failure,
and every subsequent record in the batch is still processed: one record's
failure never stops the batch.  The five implications cover an exception
raised by the fetch call, by the detail extraction or by the raw-text
extraction (each both on cached and on freshly fetched html); the final
conjunct shows the batch always processes every linked record regardless of
such failures. -/
theorem c3_exception_errors_batch_continues (env : Env) (st : PState) (record : Record)
    (e : String)
    (h1 : isTruthy (recUrl record) = true) (he : e ≠ "") :
    ((cacheRead st.fs record (recIdv record)).fst = "" →
      env.fetch (pyStr (recUrl record)) = Except.error e →
      ErrorOutcome st (processRecord env st record) e) ∧
    ((cacheRead st.fs record (recIdv record)).fst ≠ "" →
      env.extractDetails (cacheRead st.fs record (recIdv record)).fst = Except.error e →
      ErrorOutcome st (processRecord env st record) e) ∧
    (∀ ds, (cacheRead st.fs record (recIdv record)).fst ≠ "" →
      env.extractDetails (cacheRead st.fs record (recIdv record)).fst = Except.ok ds →
      env.rawText (cacheRead st.fs record (recIdv record)).fst = Except.error e →
      ErrorOutcome st (processRecord env st record) e) ∧
    (∀ html, (cacheRead st.fs record (recIdv record)).fst = "" →
      env.fetch (pyStr (recUrl record)) = Except.ok html → html ≠ "" →
      env.extractDetails html = Except.error e →
      ErrorOutcome st (processRecord env st record) e) ∧
    (∀ html ds, (cacheRead st.fs record (recIdv record)).fst = "" →
      env.fetch (pyStr (recUrl record)) = Except.ok html → html ≠ "" →
      env.extractDetails html = Except.ok ds →
      env.rawText html = Except.error e →
      ErrorOutcome st (processRecord env st record) e) ∧
    (∀ rs : List Record, (runPipeline env st rs).processed.length
      = st.processed.length + countTruthyLinks rs) := by
  have h1u : isTruthy (pyGet record "link") = true := h1
  refine ⟨?_, ?_, ?_, ?_, ?_, fun rs => runPipeline_processed_length env rs st⟩
  · intro h2 hf
    refine errorOutcome_of_markError env st record
      (cacheRead st.fs record (recIdv record)).snd e he ?_
    unfold recUrl at hf
    unfold recIdv at h2 ⊢
    simp [stepRecord, h1u, h2, hf]
  · intro h2 hd
    refine errorOutcome_of_markError env st record
      (cacheRead st.fs record (recIdv record)).snd e he ?_
    unfold recIdv at h2 hd ⊢
    simp [stepRecord, h1u, beq_false_of_ne h2, extractPhase, hd]
  · intro ds h2 hd hraw
    refine errorOutcome_of_markError env st record
      (if ds.isEmpty then (cacheRead st.fs record (recIdv record)).snd
        else updateFields (cacheRead st.fs record (recIdv record)).snd ds) e he ?_
    unfold recIdv at h2 hd hraw ⊢
    simp only [stepRecord, beq_false_of_ne h2, h1u]
    simp [extractPhase, hd, hraw]
  · intro html h2 hf hne hd
    refine errorOutcome_of_markError env st record
      (setA (cacheRead st.fs record (recIdv record)).snd "saved_html_path"
        (PyVal.vStr (joinPath outputDir (cacheFileName (pyStr (recIdv record)) env.now)))) e he ?_
    unfold recUrl at hf
    unfold recIdv at h2 ⊢
    simp [stepRecord, h1u, h2, hf, beq_false_of_ne hne, extractPhase, hd,
      save_page_source]
  · intro html ds h2 hf hne hd hraw
    refine errorOutcome_of_markError env st record
      (if ds.isEmpty
        then setA (cacheRead st.fs record (recIdv record)).snd "saved_html_path"
          (PyVal.vStr (joinPath outputDir (cacheFileName (pyStr (recIdv record)) env.now)))
        else updateFields
          (setA (cacheRead st.fs record (recIdv record)).snd "saved_html_path"
            (PyVal.vStr (joinPath outputDir (cacheFileName (pyStr (recIdv record)) env.now))))
          ds) e he ?_
    unfold recUrl at hf
    unfold recIdv at h2 ⊢
    simp [stepRecord, h1u, h2, hf, beq_false_of_ne hne, extractPhase, hd, hraw,
      save_page_source]

theorem c3_exception_errors_batch_continues_witness :
    isTruthy (recUrl [("link", PyVal.vStr "u")]) = true ∧
    ErrorOutcome { fs := [], fetchCount := 0, processed := [] }
      (processRecord { envW with fetch := fun _ => Except.error "boom" }
        { fs := [], fetchCount := 0, processed := [] } [("link", PyVal.vStr "u")]) "boom" :=
  ⟨by decide,
    ((c3_exception_errors_batch_continues
        { envW with fetch := fun _ => Except.error "boom" }
        { fs := [], fetchCount := 0, processed := [] } [("link", PyVal.vStr "u")] "boom"
        (by decide) (by decide)).1 (by decide) rfl)⟩

/-- C1: For every record that is a cache miss and whose fetch returns
non-empty HTML, the pipeline persists the raw HTML under the new timestamped
file name imovel_<identifier>_<unix-timestamp>.html in the output directory
before extraction proceeds, and sets the record's saved_html_path to that
file's path.  Persistence and the path annotation hold whatever the
extraction calls later return (including a raised exception), which captures
that they happen before extraction; the hypothesis on extractDetails only
excludes an extractor that itself overwrites the saved_html_path key, which
the repository's extractor (fixed detail vocabulary) never does. -/
theorem c1_fetch_persists_before_extraction (env : Env) (st : PState) (record : Record)
    (html : String)
    (h1 : isTruthy (recUrl record) = true)
    (h2 : (cacheRead st.fs record (recIdv record)).fst = "")
    (h3 : env.fetch (pyStr (recUrl record)) = Except.ok html)
    (h4 : html ≠ "")
    (h5 : ∀ d, env.extractDetails html = Except.ok d → hasKeyA d "saved_html_path" = false) :
    readFile (processRecord env st record).fs
        (cacheFileName (pyStr (recIdv record)) env.now) = some (some html) ∧
    ∃ r2, (processRecord env st record).processed = st.processed ++ [r2] ∧
      getA? r2 "saved_html_path"
        = some (PyVal.vStr (joinPath outputDir (cacheFileName (pyStr (recIdv record)) env.now))) := by
  have hstep : stepRecord env st.fs record
      = extractPhase env
          (writeFile st.fs (cacheFileName (pyStr (recIdv record)) env.now) html) 1
          (setA (cacheRead st.fs record (recIdv record)).snd "saved_html_path"
            (PyVal.vStr (joinPath outputDir (cacheFileName (pyStr (recIdv record)) env.now))))
          html := by
    have h1u : isTruthy (pyGet record "link") = true := h1
    unfold recUrl at h3
    unfold recIdv at h2 ⊢
    simp [stepRecord, h1u, h2, h3, beq_false_of_ne h4, save_page_source, writeFile]
  constructor
  · rw [processRecord_fs, hstep, extractPhase_fst]
    unfold readFile writeFile
    exact getA?_setA_self _ _ _
  · have hsaved : ∀ r2, (extractPhase env
        (writeFile st.fs (cacheFileName (pyStr (recIdv record)) env.now) html) 1
        (setA (cacheRead st.fs record (recIdv record)).snd "saved_html_path"
          (PyVal.vStr (joinPath outputDir (cacheFileName (pyStr (recIdv record)) env.now))))
        html).snd.snd = some r2 →
        getA? r2 "saved_html_path"
          = some (PyVal.vStr (joinPath outputDir (cacheFileName (pyStr (recIdv record)) env.now))) := by
      intro r2 hr2
      unfold extractPhase at hr2
      cases hd : env.extractDetails html with
      | error e =>
        rw [hd] at hr2
        simp only [Option.some.injEq] at hr2
        subst hr2
        rw [getA?_markError_other _ _ _ (by decide) (by decide)]
        exact getA?_setA_self _ _ _
      | ok details =>
        rw [hd] at hr2
        have hkeys := h5 details hd
        cases hraw : env.rawText html with
        | error e =>
          rw [hraw] at hr2
          simp only [Option.some.injEq] at hr2
          subst hr2
          rw [getA?_markError_other _ _ _ (by decide) (by decide)]
          cases hemp : details.isEmpty with
          | true =>
            rw [if_pos rfl]
            exact getA?_setA_self _ _ _
          | false =>
            rw [if_neg (by decide)]
            rw [getA?_updateFields_of_not_mem _ _ _ hkeys]
            exact getA?_setA_self _ _ _
        | ok raw =>
          rw [hraw] at hr2
          simp only [Option.some.injEq] at hr2
          subst hr2
          rw [getA?_setA_ne _ _ _ _ (by decide), getA?_setA_ne _ _ _ _ (by decide)]
          cases hemp : details.isEmpty with
          | true =>
            rw [if_pos rfl]
            exact getA?_setA_self _ _ _
          | false =>
            rw [if_neg (by decide)]
            rw [getA?_updateFields_of_not_mem _ _ _ hkeys]
            exact getA?_setA_self _ _ _
    obtain ⟨r2, hr2⟩ := stepRecord_some env st.fs record h1
    refine ⟨r2, processRecord_processed env st record r2 hr2, ?_⟩
    rw [hstep] at hr2
    exact hsaved r2 hr2

theorem c1_fetch_persists_before_extraction_witness :
    isTruthy (recUrl [("link", PyVal.vStr "u"), ("id_imovel", PyVal.vStr "X")]) = true ∧
    (cacheRead [] [("link", PyVal.vStr "u"), ("id_imovel", PyVal.vStr "X")]
      (recIdv [("link", PyVal.vStr "u"), ("id_imovel", PyVal.vStr "X")])).fst = "" ∧
    readFile (processRecord envW { fs := [], fetchCount := 0, processed := [] }
        [("link", PyVal.vStr "u"), ("id_imovel", PyVal.vStr "X")]).fs
        (cacheFileName (pyStr (recIdv [("link", PyVal.vStr "u"), ("id_imovel", PyVal.vStr "X")]))
          envW.now)
      = some (some "<p>x</p>") :=
  ⟨by decide, by decide,
    (c1_fetch_persists_before_extraction envW { fs := [], fetchCount := 0, processed := [] }
      [("link", PyVal.vStr "u"), ("id_imovel", PyVal.vStr "X")] "<p>x</p>"
      (by decide) (by decide) rfl (by decide)
      (fun d hd => by
        injection hd with h
        rw [← h]
        rfl)).1⟩

theorem cacheRead_hit (fs : FileSys) (record : Record) (idv : PyVal) (m c : String)
    (hv : validId idv = true)
    (hm : cacheCandidate fs (pyStr idv) = some m)
    (hr : readFile fs m = some (some c)) :
    cacheRead fs record idv
      = (c, setA record "saved_html_path" (PyVal.vStr (joinPath outputDir m))) := by
  simp [cacheRead, hv, hm, hr]

/-- C7: For every record identifier with one or more cached files matching
imovel_<identifier>_*.html in the output directory, cache lookup selects the
lexicographically last file name; the selected file (when readable and
non-empty) is the one read: the record is annotated with its path and its
content is what extraction runs on, with no fetch performed. -/
theorem c7_cache_lex_last_selected (env : Env) (st : PState) (record : Record)
    (m c : String)
    (h1 : isTruthy (recUrl record) = true)
    (hv : validId (recIdv record) = true)
    (hm : cacheCandidate st.fs (pyStr (recIdv record)) = some m)
    (hr : readFile st.fs m = some (some c))
    (hc : c ≠ "") :
    (m ∈ globCache st.fs (pyStr (recIdv record)) ∧
      ∀ x ∈ globCache st.fs (pyStr (recIdv record)), strLeB x m = true) ∧
    stepRecord env st.fs record
      = extractPhase env st.fs 0
          (setA record "saved_html_path" (PyVal.vStr (joinPath outputDir m))) c ∧
    (processRecord env st record).fetchCount = st.fetchCount ∧
    (processRecord env st record).fs = st.fs := by
  have hcr := cacheRead_hit st.fs record (recIdv record) m c hv hm hr
  have hstep : stepRecord env st.fs record
      = extractPhase env st.fs 0
          (setA record "saved_html_path" (PyVal.vStr (joinPath outputDir m))) c := by
    have h1u : isTruthy (pyGet record "link") = true := h1
    unfold recIdv at hcr
    simp [stepRecord, h1u, hcr, beq_false_of_ne hc]
  refine ⟨cacheCandidate_max st.fs _ m hm, hstep, ?_, ?_⟩
  · rw [processRecord_fetchCount, hstep, extractPhase_nf]
    exact Nat.add_zero _
  · rw [processRecord_fs, hstep, extractPhase_fst]

/-- record used by the concrete pipeline witnesses. -/
def recW : Record := [("link", PyVal.vStr "u"), ("id_imovel", PyVal.vStr "X")]

/-- cache directory used by the concrete pipeline witnesses: two snapshots of
the identifier X, timestamps 100 and 200. -/
def fsW : FileSys :=
  [("imovel_X_100.html", some "<p>old</p>"), ("imovel_X_200.html", some "<p>new</p>")]

theorem c7_cache_lex_last_selected_witness :
    isTruthy (recUrl recW) = true ∧
    cacheCandidate fsW (pyStr (recIdv recW)) = some "imovel_X_200.html" ∧
    readFile fsW "imovel_X_200.html" = some (some "<p>new</p>") ∧
    ("imovel_X_200.html" ∈ globCache fsW (pyStr (recIdv recW)) ∧
      ∀ x ∈ globCache fsW (pyStr (recIdv recW)), strLeB x "imovel_X_200.html" = true) :=
  ⟨by decide, by decide, by decide,
    (c7_cache_lex_last_selected envW { fs := fsW, fetchCount := 0, processed := [] } recW
      "imovel_X_200.html" "<p>new</p>"
      (by decide) (by decide) (by decide) (by decide) (by decide)).1⟩

theorem stepRecord_cachehit_preserves (env : Env) (fs : FileSys) (record : Record)
    (H : validId (recIdv record) = true ∧
      ∃ m c, cacheCandidate fs (pyStr (recIdv record)) = some m ∧
        readFile fs m = some (some c) ∧ c ≠ "") :
    (stepRecord env fs record).fst = fs ∧ (stepRecord env fs record).snd.fst = 0 := by
  obtain ⟨hv, m, c, hm, hr, hc⟩ := H
  cases h1 : isTruthy (recUrl record) with
  | false =>
    rw [stepRecord_no_link env fs record h1]
    exact ⟨rfl, rfl⟩
  | true =>
    have hcr := cacheRead_hit fs record (recIdv record) m c hv hm hr
    have hstep : stepRecord env fs record
        = extractPhase env fs 0
            (setA record "saved_html_path" (PyVal.vStr (joinPath outputDir m))) c := by
      have h1u : isTruthy (pyGet record "link") = true := h1
      unfold recIdv at hcr
      simp [stepRecord, h1u, hcr, beq_false_of_ne hc]
    rw [hstep]
    exact ⟨extractPhase_fst _ _ _ _ _, extractPhase_nf _ _ _ _ _⟩

theorem runPipeline_all_cachehit (env : Env) (fs : FileSys) :
    ∀ (records : List Record) (st : PState), st.fs = fs →
    (∀ r ∈ records, validId (recIdv r) = true ∧
      ∃ m c, cacheCandidate fs (pyStr (recIdv r)) = some m ∧
        readFile fs m = some (some c) ∧ c ≠ "") →
    (runPipeline env st records).fs = fs ∧
      (runPipeline env st records).fetchCount = st.fetchCount
  | [], st, hfs, _ => ⟨hfs, rfl⟩
  | r :: rs, st, hfs, H => by
    have hstep := stepRecord_cachehit_preserves env fs r (H r (List.mem_cons_self r rs))
    have hnext : (processRecord env st r).fs = fs := by
      rw [processRecord_fs, hfs]
      exact hstep.1
    have hcount : (processRecord env st r).fetchCount = st.fetchCount := by
      rw [processRecord_fetchCount, hfs, hstep.2]
      exact Nat.add_zero _
    rw [runPipeline_cons]
    have ih := runPipeline_all_cachehit env fs rs (processRecord env st r) hnext
      (fun r2 hr2 => H r2 (List.mem_cons_of_mem r hr2))
    exact ⟨ih.1, by rw [ih.2, hcount]⟩

/-- C9: For every input record set and every cache directory already holding
a readable non-empty snapshot for each record's identifier (the
lexicographically last matching file being the one the lookup reads),
running the pipeline performs zero invocations of the fetch collaborator and
leaves the cache directory unchanged; running it again over that cache is
literally the same computation on the same inputs and so produces identical
extracted detail fields on both runs. -/
theorem c9_cached_rerun_identical (env : Env) (fs : FileSys) (records : List Record)
    (H : ∀ r ∈ records, validId (recIdv r) = true ∧
      ∃ m c, cacheCandidate fs (pyStr (recIdv r)) = some m ∧
        readFile fs m = some (some c) ∧ c ≠ "") :
    (runPipeline env { fs := fs, fetchCount := 0, processed := [] } records).fetchCount = 0 ∧
    (runPipeline env { fs := fs, fetchCount := 0, processed := [] } records).fs = fs ∧
    runPipeline env
        { fs := (runPipeline env { fs := fs, fetchCount := 0, processed := [] } records).fs,
          fetchCount := 0, processed := [] } records
      = runPipeline env { fs := fs, fetchCount := 0, processed := [] } records := by
  have h := runPipeline_all_cachehit env fs records
    { fs := fs, fetchCount := 0, processed := [] } rfl H
  exact ⟨h.2, h.1, by rw [h.1]⟩

theorem c9_cached_rerun_identical_witness :
    (runPipeline envW { fs := fsW, fetchCount := 0, processed := [] } [recW]).fetchCount = 0 ∧
    (runPipeline envW { fs := fsW, fetchCount := 0, processed := [] } [recW]).fs = fsW := by
  have h := c9_cached_rerun_identical envW fsW [recW] ?_
  · exact ⟨h.1, h.2.1⟩
  · intro r hr
    rw [List.mem_singleton] at hr
    subst hr
    exact ⟨by decide, "imovel_X_200.html", "<p>new</p>", by decide, by decide, by decide⟩

/-! ## HTML document model

A parsed document is its preorder (document-order) listing of DOM nodes,
each keyed by its path in the tree (the list of child indexes from the
root).  Descendant, following and ancestor relations of BeautifulSoup are
path relations; this keeps every operation a plain list traversal. -/

/-- a DOM node: an element with tag name, id attribute and class list, or a
navigable string. -/
inductive DNode where
  | elem (tag : String) (idAttr : Option String) (classes : List String)
  | text (s : String)
deriving Repr, DecidableEq

/-- one document entry: a node at its tree path. -/
structure DEntry where
  path : List Nat
  node : DNode
deriving Repr, DecidableEq

/-- a document: its nodes in preorder (= document order). -/
abbrev Doc := List DEntry

/-- Whether the first path is an initial segment of the second. -/
def pathStarts : List Nat → List Nat → Bool
  | [], _ => true
  | _ :: _, [] => false
  | a :: as, b :: bs => a == b && pathStarts as bs

/-- Whether q is a strict descendant path of p. -/
def properDesc (p q : List Nat) : Bool := pathStarts p q && !(q == p)

/-- Whether the node is an element with one of the given tag names. -/
def DNode.tagIs (tags : List String) : DNode → Bool
  | .elem t _ _ => tags.contains t
  | .text _ => false

/-- the string of a text node. -/
def DNode.textOf? : DNode → Option String
  | .text s => some s
  | .elem _ _ _ => none

/-- the CSS selectors the extractor uses: #id, .class and tag selectors. -/
inductive Sel where
  | byId (s : String)
  | byClass (s : String)
  | byTag (s : String)

/-- CSS selector match on one node. -/
def selMatch : Sel → DNode → Bool
  | .byId i, .elem _ (some j) _ => i == j
  | .byClass c, .elem _ _ cs => cs.contains c
  | .byTag t, .elem t2 _ _ => t == t2
  | _, _ => false

/-- all strict descendants of the node at path p, in document order. -/
def descend (doc : Doc) (p : List Nat) : Doc :=
  doc.filter (fun e => properDesc p e.path)

/-- the node at path p and all its descendants, in document order. -/
def subtreeIncl (doc : Doc) (p : List Nat) : Doc :=
  doc.filter (fun e => pathStarts p e.path)

/-- the document entry at an exact path. -/
def entryAt? (doc : Doc) (p : List Nat) : Option DEntry :=
  doc.find? (fun e => e.path == p)

/-- all entries strictly after the entry at path p in document order
(BeautifulSoup's next_elements: the continuation of the preorder, which
starts with the node's own descendants). -/
def afterPath : Doc → List Nat → Doc
  | [], _ => []
  | e :: es, p => if e.path == p then es else afterPath es p

/-- soup.select_one(sel): first matching element of the whole document. -/
def selectOneDoc (doc : Doc) (s : Sel) : Option DEntry :=
  doc.find? (fun e => selMatch s e.node)

/-- node.select_one(sel): first matching element among the descendants. -/
def selectOneIn (doc : Doc) (p : List Nat) (s : Sel) : Option DEntry :=
  (descend doc p).find? (fun e => selMatch s e.node)

/-- node.find(tags): first descendant element with one of the tags. -/
def findTagIn (doc : Doc) (p : List Nat) (tags : List String) : Option DEntry :=
  (descend doc p).find? (fun e => e.node.tagIs tags)

/-- node.find_all(tags): all descendant elements with one of the tags. -/
def findAllTagIn (doc : Doc) (p : List Nat) (tags : List String) : Doc :=
  (descend doc p).filter (fun e => e.node.tagIs tags)

/-- node.find_next(tags): first element with one of the tags after the node
in document order. -/
def findNextTag (doc : Doc) (p : List Nat) (tags : List String) : Option DEntry :=
  (afterPath doc p).find? (fun e => e.node.tagIs tags)

/-- node.find(string=pred): first descendant text node whose string
satisfies the predicate. -/
def findString (doc : Doc) (p : List Nat) (pred : String → Bool) : Option DEntry :=
  (descend doc p).find? (fun e =>
    match e.node.textOf? with
    | some s => pred s
    | none => false)

/-- node.find_all(string=pred): all such text nodes, in document order. -/
def findAllString (doc : Doc) (p : List Nat) (pred : String → Bool) : Doc :=
  (descend doc p).filter (fun e =>
    match e.node.textOf? with
    | some s => pred s
    | none => false)

/-- the ancestor paths of p, nearest first. -/
def ancestorPaths (p : List Nat) : List (List Nat) :=
  (List.range p.length).reverse.map (fun k => p.take k)

/-- node.find_parent(tag): the nearest ancestor element with the tag. -/
def findParentTag (doc : Doc) (p : List Nat) (tag : String) : Option (List Nat) :=
  (ancestorPaths p).findSome? (fun q =>
    match entryAt? doc q with
    | some e => if e.node.tagIs [tag] then some q else none
    | none => none)

/-! ## Text utilities (Python string semantics) -/

/-- Python str.strip() whitespace set (ASCII part). -/
def isWS (c : Char) : Bool :=
  c == ' ' || c == '\t' || c == '\n' || c == '\r' || c == '\x0b' || c == '\x0c'

/-- Python str.strip() on a character list. -/
def trimL (s : List Char) : List Char :=
  ((s.dropWhile isWS).reverse.dropWhile isWS).reverse

/-- Python str.strip() on a string. -/
def trimS (s : String) : String := String.mk (trimL s.toList)

/-- str.join of a list with the given separator. -/
def joinSep (sep : String) : List String → String
  | [] => ""
  | [x] => x
  | x :: y :: rest => x ++ sep ++ joinSep sep (y :: rest)

/-- the strings of all text nodes inside the node at path p, document
order. -/
def textsUnder (doc : Doc) (p : List Nat) : List String :=
  (subtreeIncl doc p).filterMap (fun e => e.node.textOf?)

/-- BeautifulSoup get_text(separator=sep, strip=True): each string stripped,
whitespace-only strings dropped, the rest joined with the separator. -/
def getTextSep (doc : Doc) (p : List Nat) (sep : String) : String :=
  joinSep sep (((textsUnder doc p).map trimS).filter (fun s => !(s == "")))

/-- get_text(strip=True): as above with the empty separator. -/
def getTextStrip (doc : Doc) (p : List Nat) : String := getTextSep doc p ""

/-- Whether the second list occurs as a contiguous segment of the first
argument list order: needle n inside haystack. -/
def infixL (n : List Char) : List Char → Bool
  | [] => startsWithL n []
  | c :: t => startsWithL n (c :: t) || infixL n t

/-- Python substring test: needle in hay. -/
def containsSub (hay needle : String) : Bool := infixL needle.toList hay.toList

/-- Python str.replace on character lists (all occurrences, left to right,
non-overlapping); the fuel starts at the haystack length, which bounds the
number of steps since every step consumes at least one character. -/
def replaceFuel (p : Char) (ps rep : List Char) : Nat → List Char → List Char
  | _, [] => []
  | 0, s => s
  | fuel + 1, c :: t =>
    if startsWithL (p :: ps) (c :: t) then
      rep ++ replaceFuel p ps rep fuel (List.drop ps.length t)
    else c :: replaceFuel p ps rep fuel t

/-- Python str.replace(pat, rep) for a non-empty pattern. -/
def replaceS (s pat rep : String) : String :=
  match pat.toList with
  | [] => s
  | p :: ps => String.mk (replaceFuel p ps rep.toList s.toList.length s.toList)

/-! ## Regular expressions (Python re semantics)

A small backtracking matcher: ordered alternation, greedy star (longest
continuation tried first), leftmost search position wins, and the single
capturing group of each of the extractor's patterns is recovered from the
consumed prefix.  The matcher is fuel-indexed to stay structurally
recursive; `reFuel` is a generous bound on the backtracking depth. -/

inductive RE where
  | eps
  | charP (p : Char → Bool)
  | seq (a b : RE)
  | alt (a b : RE)
  | star (a : RE)

def reSize : RE → Nat
  | .eps => 1
  | .charP _ => 1
  | .seq a b => reSize a + reSize b + 1
  | .alt a b => reSize a + reSize b + 1
  | .star a => reSize a + 1

/-- Continuation-passing matcher.  Alternation tries the left branch first;
the star tries consuming (one non-empty step, then the star again) before
the empty match, which is the greedy backtracking order of Python re. -/
def reRun {α : Type} : Nat → RE → List Char → (List Char → Option α) → Option α
  | _, .eps, s, k => k s
  | _, .charP _, [], _ => none
  | _, .charP p, c :: t, k => if p c then k t else none
  | 0, .seq _ _, _, _ => none
  | fuel + 1, .seq a b, s, k => reRun fuel a s (fun t => reRun fuel b t k)
  | 0, .alt _ _, _, _ => none
  | fuel + 1, .alt a b, s, k =>
    match reRun fuel a s k with
    | some r => some r
    | none => reRun fuel b s k
  | 0, .star _, s, k => k s
  | fuel + 1, .star a, s, k =>
    match reRun fuel a s
        (fun t => if t.length < s.length then reRun fuel (.star a) t k else none) with
    | some r => some r
    | none => k s

/-- generous fuel bound for a pattern over a string. -/
def reFuel (r : RE) (s : List Char) : Nat := (reSize r + 2) * (s.length + 2)

/-- Attempt a match of pre then grp at the start of s; on success return the
characters grp consumed (the content of the capturing group), respecting the
backtracking order. -/
def tryCapture (pre grp : RE) (s : List Char) : Option (List Char) :=
  reRun (reFuel (RE.seq pre grp) s) pre s (fun s1 =>
    reRun (reFuel (RE.seq pre grp) s) grp s1 (fun s2 =>
      some (s1.take (s1.length - s2.length))))

/-- re.search: try each start position left to right. -/
def searchCapture (pre grp : RE) : List Char → Option (List Char)
  | [] => tryCapture pre grp []
  | c :: t =>
    match tryCapture pre grp (c :: t) with
    | some r => some r
    | none => searchCapture pre grp t

/-- re.search(pre (grp), s).group(1) (or group(0) with an empty pre). -/
def reSearchGroup (pre grp : RE) (s : String) : Option String :=
  (searchCapture pre grp s.toList).map (fun cs => String.mk cs)

/-- lower-casing for the IGNORECASE patterns: ASCII letters plus the accented
letters appearing in the extractor's Portuguese label literals. -/
def lowerBR (c : Char) : Char :=
  if 65 ≤ c.toNat && c.toNat ≤ 90 then Char.ofNat (c.toNat + 32)
  else if c == 'Ã' then 'ã' else if c == 'Á' then 'á' else if c == 'É' then 'é'
  else if c == 'Ê' then 'ê' else if c == 'Í' then 'í' else if c == 'Ó' then 'ó'
  else if c == 'Õ' then 'õ' else if c == 'Ú' then 'ú' else if c == 'Ç' then 'ç'
  else c

def rCharCI (c : Char) : RE := RE.charP (fun x => lowerBR x == lowerBR c)

/-- a case-insensitive literal. -/
def rLitCI (s : String) : RE := (s.toList.map rCharCI).foldr RE.seq RE.eps

def rChar (c : Char) : RE := RE.charP (fun x => x == c)

def rDigit : RE := RE.charP Char.isDigit

def rSpace : RE := RE.charP isWS

/-- the regex dot: any character but a newline. -/
def rDot : RE := RE.charP (fun c => !(c == '\n'))

def rOpt (r : RE) : RE := RE.alt r RE.eps

def rPlus (r : RE) : RE := RE.seq r (RE.star r)

def rRep (r : RE) : Nat → RE
  | 0 => RE.eps
  | n + 1 => RE.seq r (rRep r n)

/-- the character class [\d\.,] of the monetary patterns. -/
def rValChars : RE := RE.charP (fun c => c.isDigit || c == '.' || c == ',')

/-- the group (R\$\s*[\d\.,]+) of the two monetary patterns. -/
def grpMoney : RE :=
  RE.seq (rCharCI 'R') (RE.seq (rChar '$') (RE.seq (RE.star rSpace) (rPlus rValChars)))

/-- the group (\d{2}/\d{2}/\d{4}) of the date patterns. -/
def grpDate : RE :=
  RE.seq (rRep rDigit 2) (RE.seq (rChar '/')
    (RE.seq (rRep rDigit 2) (RE.seq (rChar '/') (rRep rDigit 4))))

/-- \d{5}-\d{3} (the CEP pattern, whole match). -/
def reCEP : RE := RE.seq (rRep rDigit 5) (RE.seq (rChar '-') (rRep rDigit 3))

/-- Valor de avaliação:?\s* (extractor.py line 191, IGNORECASE). -/
def preValAval : RE :=
  RE.seq (rLitCI "Valor de avaliação") (RE.seq (rOpt (rChar ':')) (RE.star rSpace))

/-- Valor mínimo.*:?\s* (extractor.py line 194, IGNORECASE). -/
def preValMin : RE :=
  RE.seq (rLitCI "Valor mínimo")
    (RE.seq (RE.star rDot) (RE.seq (rOpt (rChar ':')) (RE.star rSpace)))

/-- 1º Leilão.*:?\s* (extractor.py line 199, IGNORECASE). -/
def preLeilao1 : RE :=
  RE.seq (rLitCI "1º Leilão")
    (RE.seq (RE.star rDot) (RE.seq (rOpt (rChar ':')) (RE.star rSpace)))

/-- 2º Leilão.*:?\s* (extractor.py line 202, IGNORECASE). -/
def preLeilao2 : RE :=
  RE.seq (rLitCI "2º Leilão")
    (RE.seq (RE.star rDot) (RE.seq (rOpt (rChar ':')) (RE.star rSpace)))

/-- Data.*Leilão.*:?\s* (extractor.py line 207, IGNORECASE). -/
def preLeilaoGen : RE :=
  RE.seq (rLitCI "Data")
    (RE.seq (RE.star rDot)
      (RE.seq (rLitCI "Leilão")
        (RE.seq (RE.star rDot) (RE.seq (rOpt (rChar ':')) (RE.star rSpace)))))

/-! ## DataExtractor (extractor.py) -/

/-- DataExtractor.extract_element_text (extractor.py lines 38-53): joined
text of the first element matching the selector, none when no match. -/
def extract_element_text (doc : Doc) (sel : Sel) (sep : String) : Option String :=
  match selectOneDoc doc sel with
  | none => none
  | some e => some (getTextSep doc e.path sep)

/-- table.find_all(tr) on the table at the given path. -/
def tableRows (doc : Doc) (tblPath : List Nat) : Doc := findAllTagIn doc tblPath ["tr"]

/-- row.find_all([td, th]) on the row at the given path. -/
def rowCells (doc : Doc) (rowPath : List Nat) : Doc := findAllTagIn doc rowPath ["td", "th"]

/-- table.find(thead). -/
def theadOf (doc : Doc) (tblPath : List Nat) : Option DEntry := findTagIn doc tblPath ["thead"]

/-- the header row: thead.find(tr) when a thead exists, else table.find(tr)
(extractor.py lines 101-105). -/
def headerRowOf (doc : Doc) (tblPath : List Nat) : Option DEntry :=
  match theadOf doc tblPath with
  | some th => findTagIn doc th.path ["tr"]
  | none => findTagIn doc tblPath ["tr"]

/-- header texts: header_row.find_all([th, td]) stripped (line 108). -/
def tableHeaders (doc : Doc) (tblPath : List Nat) : List String :=
  match headerRowOf doc tblPath with
  | some hr => (findAllTagIn doc hr.path ["th", "td"]).map (fun c => getTextStrip doc c.path)
  | none => []

/-- a Python dict displayed as its pair list (duplicate keys overwrite). -/
def dictOfPairs (ps : List (String × String)) : List (String × String) :=
  ps.foldl (fun d kv => setA d kv.fst kv.snd) []

/-- DataExtractor.extract_table (extractor.py lines 82-120). -/
def extract_table (doc : Doc) (sel : Sel) : List (List (String × String)) :=
  match selectOneDoc doc sel with
  | none => []
  | some tbl =>
    let headers := tableHeaders doc tbl.path
    let rows := tableRows doc tbl.path
    let startIndex :=
      if (theadOf doc tbl.path).isNone && !rows.isEmpty
          && (rows.head? == headerRowOf doc tbl.path)
      then 1 else 0
    (rows.drop startIndex).filterMap (fun r =>
      let cells := rowCells doc r.path
      if cells.length == headers.length then
        some (dictOfPairs (headers.zip (cells.map (fun c => getTextStrip doc c.path))))
      else none)

/-- the loop body of get_text_after_label (extractor.py lines 137-149): for
each text node containing the label, return the text of a strong/b
descendant of its parent if one exists, else the text of the next
strong/b/span in document order if one exists, else try the next hit. -/
def firstLabelHit (doc : Doc) : Doc → Option String
  | [] => none
  | e :: es =>
    let parentPath := e.path.dropLast
    match findTagIn doc parentPath ["strong", "b"] with
    | some st => some (getTextStrip doc st.path)
    | none =>
      match findNextTag doc parentPath ["strong", "b", "span"] with
      | some nx => some (getTextStrip doc nx.path)
      | none => firstLabelHit doc es

/-- get_text_after_label (extractor.py lines 133-150) over the container at
cpath. -/
def get_text_after_label (doc : Doc) (cpath : List Nat) (label : String) : Option String :=
  firstLabelHit doc (findAllString doc cpath (fun s => containsSub s label))

/-- an optional extracted string as the stored Python value (None when the
extraction found nothing). -/
def optVal : Option String → PyVal
  | some s => PyVal.vStr s
  | none => PyVal.vNone

/-- direct string children of a node, as h5.contents filtered to str. -/
def directTextChildren (doc : Doc) (p : List Nat) : List String :=
  (doc.filter (fun e => (e.path.length == p.length + 1) && pathStarts p e.path)).filterMap
    (fun e => e.node.textOf?)

/-- section 1 of extract_property_details (lines 152-161): Cidade_Bairro
from the h5 header (key only set when an h5 exists), then the three
label-keyed identification fields, always set. -/
def detailsLoc (doc : Doc) (cpath : List Nat) (d : Record) : Record :=
  let d :=
    match selectOneIn doc cpath (Sel.byTag "h5") with
    | some h5 =>
      setA d "Cidade_Bairro" (PyVal.vStr (trimS (joinSep "" (directTextChildren doc h5.path))))
    | none => d
  let d := setA d "Numero_Imovel" (optVal (get_text_after_label doc cpath "Número do imóvel"))
  let d := setA d "Matricula" (optVal (get_text_after_label doc cpath "Matrícula(s)"))
  setA d "Inscricao_Imobiliaria" (optVal (get_text_after_label doc cpath "Inscrição imobiliária"))

/-- address part of section 1 (lines 163-179): Endereco from the paragraph
containing the label inside .related-box, CEP from the extracted address
(N/A sentinel when the pattern fails); both keys only set when their
enclosing structure exists. -/
def detailsAddr (doc : Doc) (cpath : List Nat) (d : Record) : Record :=
  match selectOneIn doc cpath (Sel.byClass "related-box") with
  | none => d
  | some rb =>
    let d :=
      match findString doc rb.path (fun s => containsSub s "Endereço:") with
      | none => d
      | some addrNode =>
        match findParentTag doc addrNode.path "p" with
        | none => d
        | some pPath =>
          setA d "Endereco"
            (PyVal.vStr (trimS (replaceS (getTextSep doc pPath " ") "Endereço:" "")))
    match getA? d "Endereco" with
    | some v =>
      setA d "CEP"
        (match reSearchGroup RE.eps reCEP (pyStr v) with
         | some m => PyVal.vStr m
         | none => PyVal.vStr "N/A")
    | none => d

/-- section 2 (lines 181-209): the four value/date fields from the first
paragraph of .content (keys only set when .content and its paragraph exist;
within that case each key is always present, None on pattern failure), with
the generic date fallback for Data_1_Leilao. -/
def detailsValues (doc : Doc) (cpath : List Nat) (d : Record) : Record :=
  match selectOneIn doc cpath (Sel.byClass "content") with
  | none => d
  | some contentDiv =>
    match selectOneIn doc contentDiv.path (Sel.byTag "p") with
    | none => d
    | some pVal =>
      let text := getTextSep doc pVal.path " "
      let d := setA d "Valor_Avaliacao" (optVal (reSearchGroup preValAval grpMoney text))
      let d := setA d "Valor_Minimo" (optVal (reSearchGroup preValMin grpMoney text))
      let d := setA d "Data_1_Leilao" (optVal (reSearchGroup preLeilao1 grpDate text))
      let d := setA d "Data_2_Leilao" (optVal (reSearchGroup preLeilao2 grpDate text))
      if isTruthy (pyGet d "Data_1_Leilao") then d
      else
        match reSearchGroup preLeilaoGen grpDate text with
        | some g => setA d "Data_1_Leilao" (PyVal.vStr g)
        | none => d

/-- section 3 (lines 211-216): the five label-keyed characteristics, always
set. -/
def detailsCaract (doc : Doc) (cpath : List Nat) (d : Record) : Record :=
  let d := setA d "Tipo_Imovel" (optVal (get_text_after_label doc cpath "Tipo de imóvel"))
  let d := setA d "Area_Terreno" (optVal (get_text_after_label doc cpath "Área do terreno"))
  let d := setA d "Area_Privativa" (optVal (get_text_after_label doc cpath "Área privativa"))
  let d := setA d "Quartos" (optVal (get_text_after_label doc cpath "Quartos"))
  setA d "Garagem" (optVal (get_text_after_label doc cpath "Garagem"))

/-- description part of section 3 (lines 218-224), key only set when found. -/
def detailsDesc (doc : Doc) (cpath : List Nat) (d : Record) : Record :=
  match selectOneIn doc cpath (Sel.byClass "related-box") with
  | none => d
  | some rb =>
    match findString doc rb.path (fun s => containsSub s "Descrição:") with
    | none => d
    | some descNode =>
      match findParentTag doc descNode.path "p" with
      | none => d
      | some pPath =>
        setA d "Descricao"
          (PyVal.vStr (trimS (replaceS (getTextSep doc pPath " ") "Descrição:" "")))

/-- section 4 (lines 226-228): Edital and Averbacao_Leiloes, always set. -/
def detailsLeilao (doc : Doc) (cpath : List Nat) (d : Record) : Record :=
  let d := setA d "Edital" (optVal (get_text_after_label doc cpath "Edital"))
  setA d "Averbacao_Leiloes" (optVal (get_text_after_label doc cpath "Averbação dos leilões"))

/-- section 5 (lines 230-238): Condicoes_Pagamento, key only set when the
payment paragraph is found inside .related-box. -/
def detailsPagamento (doc : Doc) (cpath : List Nat) (d : Record) : Record :=
  match selectOneIn doc cpath (Sel.byClass "related-box") with
  | none => d
  | some rb =>
    match findString doc rb.path (fun s => containsSub s "FORMAS DE PAGAMENTO ACEITAS") with
    | none => d
    | some pagNode =>
      match findParentTag doc pagNode.path "p" with
      | none => d
      | some pPath => setA d "Condicoes_Pagamento" (PyVal.vStr (getTextSep doc pPath " "))

/-- DataExtractor.extract_property_details (extractor.py lines 122-240):
locate #dadosImovel; when absent return the empty mapping, otherwise run the
five extraction sections in source order over the container. -/
def extract_property_details (doc : Doc) : Record :=
  match selectOneDoc doc (Sel.byId "dadosImovel") with
  | none => []
  | some container =>
    let d := detailsLoc doc container.path []
    let d := detailsAddr doc container.path d
    let d := detailsValues doc container.path d
    let d := detailsCaract doc container.path d
    let d := detailsDesc doc container.path d
    let d := detailsLeilao doc container.path d
    detailsPagamento doc container.path d

/-! ## Claim theorems about the extractor -/

/-- C6: For every HTML input that contains no container element
(#dadosImovel), detail extraction returns an empty mapping; as a total Lean
function of the document it can raise no exception. -/
theorem c6_no_container_empty_mapping (doc : Doc)
    (h : selectOneDoc doc (Sel.byId "dadosImovel") = none) :
    extract_property_details doc = [] := by
  unfold extract_property_details
  rw [h]

theorem c6_no_container_empty_mapping_witness :
    selectOneDoc [{ path := [0], node := DNode.elem "div" none ["content"] }]
        (Sel.byId "dadosImovel") = none ∧
    extract_property_details [{ path := [0], node := DNode.elem "div" none ["content"] }] = [] :=
  ⟨by decide,
    c6_no_container_empty_mapping [{ path := [0], node := DNode.elem "div" none ["content"] }]
      (by decide)⟩

theorem hasKeyA_detailsLoc_mono (doc : Doc) (cpath : List Nat) (d : Record) (k : String)
    (h : hasKeyA d k = true) : hasKeyA (detailsLoc doc cpath d) k = true := by
  simp only [detailsLoc]
  split
  all_goals repeat apply hasKeyA_setA_of
  all_goals exact h

theorem hasKeyA_detailsAddr_mono (doc : Doc) (cpath : List Nat) (d : Record) (k : String)
    (h : hasKeyA d k = true) : hasKeyA (detailsAddr doc cpath d) k = true := by
  simp only [detailsAddr]
  repeat' split
  all_goals repeat apply hasKeyA_setA_of
  all_goals exact h

theorem hasKeyA_detailsValues_mono (doc : Doc) (cpath : List Nat) (d : Record) (k : String)
    (h : hasKeyA d k = true) : hasKeyA (detailsValues doc cpath d) k = true := by
  simp only [detailsValues]
  repeat' split
  all_goals repeat apply hasKeyA_setA_of
  all_goals exact h

theorem hasKeyA_detailsCaract_mono (doc : Doc) (cpath : List Nat) (d : Record) (k : String)
    (h : hasKeyA d k = true) : hasKeyA (detailsCaract doc cpath d) k = true := by
  simp only [detailsCaract]
  repeat apply hasKeyA_setA_of
  exact h

theorem hasKeyA_detailsDesc_mono (doc : Doc) (cpath : List Nat) (d : Record) (k : String)
    (h : hasKeyA d k = true) : hasKeyA (detailsDesc doc cpath d) k = true := by
  simp only [detailsDesc]
  repeat' split
  all_goals repeat apply hasKeyA_setA_of
  all_goals exact h

theorem hasKeyA_detailsLeilao_mono (doc : Doc) (cpath : List Nat) (d : Record) (k : String)
    (h : hasKeyA d k = true) : hasKeyA (detailsLeilao doc cpath d) k = true := by
  simp only [detailsLeilao]
  repeat apply hasKeyA_setA_of
  exact h

theorem hasKeyA_detailsPagamento_mono (doc : Doc) (cpath : List Nat) (d : Record) (k : String)
    (h : hasKeyA d k = true) : hasKeyA (detailsPagamento doc cpath d) k = true := by
  simp only [detailsPagamento]
  repeat' split
  all_goals repeat apply hasKeyA_setA_of
  all_goals exact h

theorem detailsLoc_has (doc : Doc) (cpath : List Nat) (d : Record) (k : String)
    (hk : k ∈ ["Numero_Imovel", "Matricula", "Inscricao_Imobiliaria"]) :
    hasKeyA (detailsLoc doc cpath d) k = true := by
  simp only [detailsLoc]
  fin_cases hk
  · apply hasKeyA_setA_of
    apply hasKeyA_setA_of
    exact hasKeyA_setA_self _ _ _
  · apply hasKeyA_setA_of
    exact hasKeyA_setA_self _ _ _
  · exact hasKeyA_setA_self _ _ _

theorem detailsCaract_has (doc : Doc) (cpath : List Nat) (d : Record) (k : String)
    (hk : k ∈ ["Tipo_Imovel", "Area_Terreno", "Area_Privativa", "Quartos", "Garagem"]) :
    hasKeyA (detailsCaract doc cpath d) k = true := by
  simp only [detailsCaract]
  fin_cases hk
  · apply hasKeyA_setA_of
    apply hasKeyA_setA_of
    apply hasKeyA_setA_of
    apply hasKeyA_setA_of
    exact hasKeyA_setA_self _ _ _
  · apply hasKeyA_setA_of
    apply hasKeyA_setA_of
    apply hasKeyA_setA_of
    exact hasKeyA_setA_self _ _ _
  · apply hasKeyA_setA_of
    apply hasKeyA_setA_of
    exact hasKeyA_setA_self _ _ _
  · apply hasKeyA_setA_of
    exact hasKeyA_setA_self _ _ _
  · exact hasKeyA_setA_self _ _ _

theorem detailsLeilao_has (doc : Doc) (cpath : List Nat) (d : Record) (k : String)
    (hk : k ∈ ["Edital", "Averbacao_Leiloes"]) :
    hasKeyA (detailsLeilao doc cpath d) k = true := by
  simp only [detailsLeilao]
  fin_cases hk
  · apply hasKeyA_setA_of
    exact hasKeyA_setA_self _ _ _
  · exact hasKeyA_setA_self _ _ _

/-- C2 (amended): For every HTML input in which the container element
(#dadosImovel) is present, the mapping extract_property_details returns
contains every label-keyed field of the fixed vocabulary (Numero_Imovel,
Matricula, Inscricao_Imobiliaria, Tipo_Imovel, Area_Terreno, Area_Privativa,
Quartos, Garagem, Edital, Averbacao_Leiloes), each present with the None
sentinel when its extraction fails; the remaining fields (Cidade_Bairro,
Endereco, CEP, the four value/date fields, Descricao, Condicoes_Pagamento)
are keyed on the presence of their enclosing structural element and are
omitted when it is missing, contrary to the claim as stated. -/
theorem c2_label_keys_always_present (doc : Doc) (container : DEntry)
    (h : selectOneDoc doc (Sel.byId "dadosImovel") = some container) :
    ∀ k ∈ ["Numero_Imovel", "Matricula", "Inscricao_Imobiliaria", "Tipo_Imovel",
           "Area_Terreno", "Area_Privativa", "Quartos", "Garagem", "Edital",
           "Averbacao_Leiloes"],
      hasKeyA (extract_property_details doc) k = true := by
  intro k hk
  have hloc : ∀ k2 ∈ ["Numero_Imovel", "Matricula", "Inscricao_Imobiliaria"],
      hasKeyA (extract_property_details doc) k2 = true := by
    intro k2 hk2
    simp only [extract_property_details, h]
    exact hasKeyA_detailsPagamento_mono _ _ _ _
      (hasKeyA_detailsLeilao_mono _ _ _ _
        (hasKeyA_detailsDesc_mono _ _ _ _
          (hasKeyA_detailsCaract_mono _ _ _ _
            (hasKeyA_detailsValues_mono _ _ _ _
              (hasKeyA_detailsAddr_mono _ _ _ _
                (detailsLoc_has doc container.path [] k2 hk2))))))
  have hcar : ∀ k2 ∈ ["Tipo_Imovel", "Area_Terreno", "Area_Privativa", "Quartos", "Garagem"],
      hasKeyA (extract_property_details doc) k2 = true := by
    intro k2 hk2
    simp only [extract_property_details, h]
    exact hasKeyA_detailsPagamento_mono _ _ _ _
      (hasKeyA_detailsLeilao_mono _ _ _ _
        (hasKeyA_detailsDesc_mono _ _ _ _
          (detailsCaract_has doc container.path _ k2 hk2)))
  have hlei : ∀ k2 ∈ ["Edital", "Averbacao_Leiloes"],
      hasKeyA (extract_property_details doc) k2 = true := by
    intro k2 hk2
    simp only [extract_property_details, h]
    exact hasKeyA_detailsPagamento_mono _ _ _ _
      (detailsLeilao_has doc container.path _ k2 hk2)
  fin_cases hk
  · exact hloc _ (by simp)
  · exact hloc _ (by simp)
  · exact hloc _ (by simp)
  · exact hcar _ (by simp)
  · exact hcar _ (by simp)
  · exact hcar _ (by simp)
  · exact hcar _ (by simp)
  · exact hcar _ (by simp)
  · exact hlei _ (by simp)
  · exact hlei _ (by simp)

/-- bare container page: #dadosImovel present but empty, so every
structure-gated field of the vocabulary is missing from the result. -/
def c2doc : Doc := [{ path := [0], node := DNode.elem "div" (some "dadosImovel") [] }]

/-- C2 counterexample: with the container present but empty, the extracted
mapping omits the appraisal value, auction date, city, address, CEP,
description and payment-terms keys of the fixed vocabulary entirely (it
holds exactly the ten label-keyed fields), refuting the claim that every
key of the vocabulary is present whenever the container exists. -/
theorem c2_container_key_absent_counterexample :
    (selectOneDoc c2doc (Sel.byId "dadosImovel")).isSome = true ∧
    hasKeyA (extract_property_details c2doc) "Valor_Avaliacao" = false ∧
    hasKeyA (extract_property_details c2doc) "Data_1_Leilao" = false ∧
    hasKeyA (extract_property_details c2doc) "Cidade_Bairro" = false ∧
    hasKeyA (extract_property_details c2doc) "Endereco" = false ∧
    hasKeyA (extract_property_details c2doc) "CEP" = false ∧
    hasKeyA (extract_property_details c2doc) "Descricao" = false ∧
    hasKeyA (extract_property_details c2doc) "Condicoes_Pagamento" = false ∧
    extract_property_details c2doc
      = [("Numero_Imovel", PyVal.vNone), ("Matricula", PyVal.vNone),
         ("Inscricao_Imobiliaria", PyVal.vNone), ("Tipo_Imovel", PyVal.vNone),
         ("Area_Terreno", PyVal.vNone), ("Area_Privativa", PyVal.vNone),
         ("Quartos", PyVal.vNone), ("Garagem", PyVal.vNone), ("Edital", PyVal.vNone),
         ("Averbacao_Leiloes", PyVal.vNone)] := by decide

theorem c2_label_keys_always_present_witness :
    selectOneDoc c2doc (Sel.byId "dadosImovel")
        = some { path := [0], node := DNode.elem "div" (some "dadosImovel") [] } ∧
    hasKeyA (extract_property_details c2doc) "Numero_Imovel" = true :=
  ⟨by decide,
    c2_label_keys_always_present c2doc
      { path := [0], node := DNode.elem "div" (some "dadosImovel") [] } (by decide)
      "Numero_Imovel" (by simp)⟩

/-- concrete page for the appraisal/date claim: the container with a
.content section whose first paragraph carries the claim's text. -/
def c8doc : Doc :=
  [ { path := [0], node := DNode.elem "div" (some "dadosImovel") [] },
    { path := [0, 0], node := DNode.elem "div" none ["content"] },
    { path := [0, 0, 0], node := DNode.elem "p" none [] },
    { path := [0, 0, 0, 0],
      node := DNode.text "Valor de avaliação: R$ 2.090.745,83 ... 1º Leilão em 10/05/2024" } ]

/-- C8: For the paragraph text "Valor de avaliação: R$ 2.090.745,83 ...
1º Leilão em 10/05/2024" appearing as the first paragraph of the container's
content section, extract_property_details sets Valor_Avaliacao to
"R$ 2.090.745,83" and Data_1_Leilao to "10/05/2024". -/
theorem c8_appraisal_and_date_extracted :
    getA? (extract_property_details c8doc) "Valor_Avaliacao"
        = some (PyVal.vStr "R$ 2.090.745,83") ∧
    getA? (extract_property_details c8doc) "Data_1_Leilao"
        = some (PyVal.vStr "10/05/2024") := by decide

theorem find?_eq_head_filter {α : Type} (p : α → Bool) :
    ∀ l : List α, l.find? p = (l.filter p).head?
  | [] => rfl
  | x :: xs => by
    cases hp : p x with
    | true =>
      rw [List.find?_cons_of_pos _ hp, List.filter_cons_of_pos hp]
      rfl
    | false =>
      have hp2 : ¬ p x = true := by
        rw [hp]
        exact Bool.false_ne_true
      rw [List.find?_cons_of_neg _ hp2, List.filter_cons_of_neg hp2]
      exact find?_eq_head_filter p xs

theorem headerRowOf_eq_head_no_thead (doc : Doc) (tblPath : List Nat)
    (h : theadOf doc tblPath = none) :
    headerRowOf doc tblPath = (tableRows doc tblPath).head? := by
  unfold headerRowOf
  rw [h]
  unfold findTagIn tableRows findAllTagIn
  exact find?_eq_head_filter _ _

/-- C5 (amended): For every table matched by extract_table, headers come
from the thead's row when a thead exists and from the first row otherwise;
when there is no thead the output is exactly the subsequent rows (all tr
elements after the first) whose cell count equals the header count, in
document order, each mapped from header names to cell texts; when a thead
exists the code iterates from start index 0 over all tr elements of the
table, so the thead's header row itself is also subject to the same
cell-count rule and (matching trivially) appears in the output, contrary to
the claim as stated.  Rows with more or fewer cells than the header count
are absent from the output entirely, never truncated or padded. -/
theorem c5_extract_table_characterized (doc : Doc) (sel : Sel) (tbl : DEntry)
    (h : selectOneDoc doc sel = some tbl) :
    extract_table doc sel
      = ((if (theadOf doc tbl.path).isNone then (tableRows doc tbl.path).drop 1
          else tableRows doc tbl.path).filterMap (fun r =>
            if (rowCells doc r.path).length == (tableHeaders doc tbl.path).length then
              some (dictOfPairs ((tableHeaders doc tbl.path).zip
                ((rowCells doc r.path).map (fun c => getTextStrip doc c.path))))
            else none)) ∧
    (∀ m ∈ extract_table doc sel,
      ∃ r, r ∈ (if (theadOf doc tbl.path).isNone then (tableRows doc tbl.path).drop 1
                else tableRows doc tbl.path) ∧
        (rowCells doc r.path).length = (tableHeaders doc tbl.path).length ∧
        m = dictOfPairs ((tableHeaders doc tbl.path).zip
          ((rowCells doc r.path).map (fun c => getTextStrip doc c.path)))) := by
  have heq : extract_table doc sel
      = ((if (theadOf doc tbl.path).isNone then (tableRows doc tbl.path).drop 1
          else tableRows doc tbl.path).filterMap (fun r =>
            if (rowCells doc r.path).length == (tableHeaders doc tbl.path).length then
              some (dictOfPairs ((tableHeaders doc tbl.path).zip
                ((rowCells doc r.path).map (fun c => getTextStrip doc c.path))))
            else none)) := by
    simp only [extract_table, h]
    cases hth : theadOf doc tbl.path with
    | some th => simp [hth]
    | none =>
      cases hrows : tableRows doc tbl.path with
      | nil => simp [hth, hrows]
      | cons r rs =>
        have hhr : headerRowOf doc tbl.path = some r := by
          rw [headerRowOf_eq_head_no_thead doc tbl.path hth, hrows]
          rfl
        simp [hth, hrows, hhr]
  refine ⟨heq, ?_⟩
  intro m hm
  rw [heq] at hm
  obtain ⟨r, hr, hfr⟩ := List.mem_filterMap.mp hm
  refine ⟨r, hr, ?_⟩
  cases hc : ((rowCells doc r.path).length == (tableHeaders doc tbl.path).length) with
  | false =>
    rw [hc] at hfr
    rw [if_neg Bool.false_ne_true] at hfr
    cases hfr
  | true =>
    rw [hc] at hfr
    rw [if_pos rfl] at hfr
    injection hfr with hm2
    exact ⟨eq_of_beq hc, hm2.symm⟩

/-- the example table of extractor.py's usage block (lines 260-277): an
explicit thead with Year/Revenue and two body rows. -/
def tableDocThead : Doc :=
  [ { path := [0], node := DNode.elem "table" (some "financials") [] },
    { path := [0, 0], node := DNode.elem "thead" none [] },
    { path := [0, 0, 0], node := DNode.elem "tr" none [] },
    { path := [0, 0, 0, 0], node := DNode.elem "th" none [] },
    { path := [0, 0, 0, 0, 0], node := DNode.text "Year" },
    { path := [0, 0, 0, 1], node := DNode.elem "th" none [] },
    { path := [0, 0, 0, 1, 0], node := DNode.text "Revenue" },
    { path := [0, 1], node := DNode.elem "tbody" none [] },
    { path := [0, 1, 0], node := DNode.elem "tr" none [] },
    { path := [0, 1, 0, 0], node := DNode.elem "td" none [] },
    { path := [0, 1, 0, 0, 0], node := DNode.text "2023" },
    { path := [0, 1, 0, 1], node := DNode.elem "td" none [] },
    { path := [0, 1, 0, 1, 0], node := DNode.text "500B" },
    { path := [0, 1, 1], node := DNode.elem "tr" none [] },
    { path := [0, 1, 1, 0], node := DNode.elem "td" none [] },
    { path := [0, 1, 1, 0, 0], node := DNode.text "2022" },
    { path := [0, 1, 1, 1], node := DNode.elem "td" none [] },
    { path := [0, 1, 1, 1, 0], node := DNode.text "450B" } ]

/-- C5 counterexample: on a table with an explicit thead the output's first
entry is the thead's header row itself (each header mapped to itself), so
the output does not consist exactly of the subsequent rows: the claim as
stated fails whenever a thead is present. -/
theorem c5_thead_header_row_in_output_counterexample :
    (theadOf tableDocThead [0]).isSome = true ∧
    extract_table tableDocThead (Sel.byId "financials")
      = [[("Year", "Year"), ("Revenue", "Revenue")],
         [("Year", "2023"), ("Revenue", "500B")],
         [("Year", "2022"), ("Revenue", "450B")]] := by decide

/-- headerless-section table used by the table-extraction witness: the first
row supplies the headers, one matching body row, one short row that must be
dropped. -/
def tableDocPlain : Doc :=
  [ { path := [0], node := DNode.elem "table" (some "t2") [] },
    { path := [0, 0], node := DNode.elem "tr" none [] },
    { path := [0, 0, 0], node := DNode.elem "td" none [] },
    { path := [0, 0, 0, 0], node := DNode.text "H1" },
    { path := [0, 0, 1], node := DNode.elem "td" none [] },
    { path := [0, 0, 1, 0], node := DNode.text "H2" },
    { path := [0, 1], node := DNode.elem "tr" none [] },
    { path := [0, 1, 0], node := DNode.elem "td" none [] },
    { path := [0, 1, 0, 0], node := DNode.text "a" },
    { path := [0, 1, 1], node := DNode.elem "td" none [] },
    { path := [0, 1, 1, 0], node := DNode.text "b" },
    { path := [0, 2], node := DNode.elem "tr" none [] },
    { path := [0, 2, 0], node := DNode.elem "td" none [] },
    { path := [0, 2, 0, 0], node := DNode.text "only-one-cell" } ]

theorem c5_extract_table_characterized_witness :
    selectOneDoc tableDocPlain (Sel.byId "t2")
        = some { path := [0], node := DNode.elem "table" (some "t2") [] } ∧
    extract_table tableDocPlain (Sel.byId "t2")
        = ((if (theadOf tableDocPlain [0]).isNone then (tableRows tableDocPlain [0]).drop 1
            else tableRows tableDocPlain [0]).filterMap (fun r =>
              if (rowCells tableDocPlain r.path).length
                  == (tableHeaders tableDocPlain [0]).length then
                some (dictOfPairs ((tableHeaders tableDocPlain [0]).zip
                  ((rowCells tableDocPlain r.path).map
                    (fun c => getTextStrip tableDocPlain c.path))))
              else none)) ∧
    extract_table tableDocPlain (Sel.byId "t2") = [[("H1", "a"), ("H2", "b")]] :=
  ⟨by decide,
    (c5_extract_table_characterized tableDocPlain (Sel.byId "t2")
      { path := [0], node := DNode.elem "table" (some "t2") [] } (by decide)).1,
    by decide⟩
